import Mathlib

set_option maxRecDepth 4000

/-!
Formal model of the `wolwait.cpp` and `sid2string.cpp` programs.

The C code is shallowly embedded: byte buffers become `List Nat`, C strings
become `List Char`, machine integers become `Nat`/`Int` with explicit
`% 4294967296` where unsigned-int wraparound matters, and every interaction
with the operating system (current time, `sendto`, `connect`, `getaddrinfo`,
`socket`, `setsockopt`, DNS lookups) is an oracle supplied through an
environment record, so that the control flow of the program itself is a pure,
executable function of the environment.
-/

/-- Exit status `EX_OK` from `sysexits.h`. -/
def EX_OK : Int := 0

/-- Exit status `EX_USAGE` from `sysexits.h`. -/
def EX_USAGE : Int := 64

/-- Exit status `EX_NOHOST` from `sysexits.h`. -/
def EX_NOHOST : Int := 68

/-- Exit status `EX_UNAVAILABLE` from `sysexits.h`. -/
def EX_UNAVAILABLE : Int := 69

/-- Exit status `EX_OSERR` from `sysexits.h`. -/
def EX_OSERR : Int := 71

/-- Exit status `EX_TEMPFAIL` from `sysexits.h`. -/
def EX_TEMPFAIL : Int := 75

/-- Exit status `EX_PROTOCOL` from `sysexits.h`. -/
def EX_PROTOCOL : Int := 76

/-- Model of `memcpy(buf + off, src, src.length)` on a byte buffer as a list:
overwrite the bytes of `buf` starting at `off` with `src`. -/
def writeBytes (buf : List Nat) (off : Nat) (src : List Nat) : List Nat :=
  buf.take off ++ src ++ buf.drop (off + src.length)

/-- Function `build_wol_packet` from `wolwait.cpp`: into a 102-byte buffer (the stack
array `unsigned char packet[WOL_PACKET_SIZE]`, modelled with an arbitrary
initial fill of `0`), `memset(buf, 0xFF, 6)` and then
`for(i = 1; i <= 16; i++) memcpy(buf + i * 6, mac, 6)`. -/
def build_wol_packet (mac : List Nat) : List Nat :=
  (List.range 16).foldl (fun buf i => writeBytes buf ((i + 1) * 6) mac)
    (writeBytes (List.replicate 102 0) 0 (List.replicate 6 255))

/-- Terminal outcome of the wake-and-wait loop in `main`: exit status `0`
(connection succeeded), `2` (deadline passed), or `EX_TEMPFAIL` (a `sendto`
call failed). -/
inductive Outcome where
  | success
  | timedOut
  | transportFailure
deriving DecidableEq

/-- Observable events of one run of `main`: each external call it makes,
tagged with whether the call succeeded where that matters. -/
inductive Ev where
  | gaiWol (ok : Bool)
  | gaiTest (ok : Bool)
  | dnsTxt
  | sockWol (ok : Bool)
  | sockOpt (ok : Bool)
  | sockTcp (ok : Bool)
  | send (i : Nat)
  | probe (i : Nat)
  | closeTcp
  | closeWol
  | freeTest
  | freeWol
deriving DecidableEq

/-- Oracle for the wake-and-wait loop: `timeAt k` is the value returned by the
`k`-th call to `time(NULL)` (call `0` initialises `begin`), `sendOk i` tells
whether the `sendto` of iteration `i` succeeds, and `probeOk i` whether the
`connect` of iteration `i` returns `0`. -/
structure Env where
  timeAt : Nat → Int
  sendOk : Nat → Bool
  probeOk : Nat → Bool

/-- The loop guard `!timeout || begin + timeout > time(NULL)` of `main`. -/
def condB (timeout b now : Int) : Bool :=
  (timeout == 0) || decide (now < b + timeout)

/-- The `while` loop of `main` (lines 306-323 of `wolwait.cpp`), as a function
of the iteration index `i` and a fuel bound (the C loop can run forever, which
the model reports as `none`).  It returns the terminal outcome together with
the ordered list of `sendto`/`connect` events performed. -/
def loopGo (timeout : Int) (e : Env) (b : Int) : Nat → Nat → Option (Outcome × List Ev)
  | 0, _ => none
  | fuel + 1, i =>
    if condB timeout b (e.timeAt (i + 1)) then
      if e.sendOk i then
        if e.probeOk i then
          some (Outcome.success, [Ev.send i, Ev.probe i])
        else
          match loopGo timeout e b fuel (i + 1) with
          | none => none
          | some (oc, evs) => some (oc, Ev.send i :: Ev.probe i :: evs)
      else
        some (Outcome.transportFailure, [Ev.send i])
    else
      some (Outcome.timedOut, [])

/-- Exit status assigned by `main` to each loop outcome (`status` starts at
`2`, becomes `0` on connect success and `EX_TEMPFAIL` on send failure). -/
def exitOf : Outcome → Int
  | Outcome.success => 0
  | Outcome.timedOut => 2
  | Outcome.transportFailure => EX_TEMPFAIL

/-- The events of `n` complete loop iterations starting at iteration `i`:
each iteration performs one send and one probe. -/
def iterEvsFrom : Nat → Nat → List Ev
  | _, 0 => []
  | i, n + 1 => Ev.send i :: Ev.probe i :: iterEvsFrom (i + 1) n

/-- Recognise a `sendto` event. -/
def isSendEv : Ev → Bool
  | Ev.send _ => true
  | _ => false

/-- Recognise a `connect` (liveness probe) event. -/
def isProbeEv : Ev → Bool
  | Ev.probe _ => true
  | _ => false

/-- Number of wake payloads sent in a trace. -/
def countSends (evs : List Ev) : Nat := (evs.filter isSendEv).length

/-- Number of liveness probes performed in a trace. -/
def countProbes (evs : List Ev) : Nat := (evs.filter isProbeEv).length

/-- Apply a constant offset `c` to every reading of the wall clock: the same
run observed under a time-zone-like uniform shift of `time(NULL)`. -/
def clockShift (e : Env) (c : Int) : Env :=
  { e with timeAt := fun k => e.timeAt k + c }

/-- Apply a step adjustment to the wall clock: from the `j`-th `time(NULL)`
call onwards the clock reads `c` seconds later (an NTP-style step happening
while the loop runs). -/
def clockStepAt (e : Env) (j : Nat) (c : Int) : Env :=
  { e with timeAt := fun k => e.timeAt k + if j ≤ k then c else 0 }

/-- C `isxdigit` restricted to the ASCII hex digits `0-9`, `a-f`, `A-F`. -/
def isxdigit (c : Char) : Bool :=
  decide (48 ≤ c.toNat ∧ c.toNat ≤ 57) || decide (97 ≤ c.toNat ∧ c.toNat ≤ 102) ||
    decide (65 ≤ c.toNat ∧ c.toNat ≤ 70)

/-- Value of one hex digit, as computed by `strtoul(..., 16)` digit by digit. -/
def hexVal (c : Char) : Nat :=
  if 48 ≤ c.toNat ∧ c.toNat ≤ 57 then c.toNat - 48
  else if 97 ≤ c.toNat then c.toNat - 87
  else c.toNat - 55

/-- Read character `i` of a C string.  Index `s.length` is the terminating
`NUL`; the model also returns `NUL` for the (undefined-behaviour) reads past
the terminator that `parse_mac` can perform on malformed input. -/
def charAt (s : List Char) (i : Nat) : Char := s.getD i (Char.ofNat 0)

/-- Test `strchr(":-.", c) != NULL`: true for `':'`, `'-'`, `'.'` and also for the
terminating `NUL` (C `strchr` finds the terminator). -/
def sepOrNul (c : Char) : Bool :=
  (c == ':') || (c == '-') || (c == '.') || (c == Char.ofNat 0)

/-- The body of `parse_mac`'s `for(i = 0; i < 6; i++)` loop: at string
position `p`, optionally skip one separator, then consume a two- or one-digit
hex byte; `none` mirrors `return false`.  Returns the bytes written to `addr`
and the final string position. -/
def pmLoop (s : List Char) : Nat → Nat → Option (List Nat × Nat)
  | 0, p => some ([], p)
  | n + 1, p =>
    let q := if sepOrNul (charAt s p) && isxdigit (charAt s (p + 1)) then p + 1 else p
    if isxdigit (charAt s q) && isxdigit (charAt s (q + 1)) then
      match pmLoop s n (q + 2) with
      | some (bs, r) => some ((16 * hexVal (charAt s q) + hexVal (charAt s (q + 1))) :: bs, r)
      | none => none
    else if isxdigit (charAt s q) then
      match pmLoop s n (q + 1) with
      | some (bs, r) => some (hexVal (charAt s q) :: bs, r)
      | none => none
    else none

/-- Function `parse_mac` from `wolwait.cpp`: six hex-byte fields with optional single
separators, and the string must be fully consumed (`if(*string) return
false`).  `some addr` is `return true` with the parsed bytes. -/
def parse_mac (s : List Char) : Option (List Nat) :=
  match pmLoop s 6 0 with
  | none => none
  | some (bs, p) => if charAt s p == Char.ofNat 0 then some bs else none

/-- C `isspace` on the default locale's six whitespace characters. -/
def isspaceC (c : Char) : Bool :=
  (c == ' ') || (c == Char.ofNat 9) || (c == Char.ofNat 10) || (c == Char.ofNat 11) ||
    (c == Char.ofNat 12) || (c == Char.ofNat 13)

/-- C `isdigit` on ASCII. -/
def isdigitC (c : Char) : Bool := decide (48 ≤ c.toNat ∧ c.toNat ≤ 57)

/-- Decimal value of the leading digit run of a string. -/
def digitsVal (s : List Char) : Int :=
  Int.ofNat ((s.takeWhile isdigitC).foldl (fun a c => 10 * a + (c.toNat - 48)) 0)

/-- C `atoi`: skip whitespace, optional sign, leading decimal digits (`0` when
there are none).  Overflow of the C `int` is undefined behaviour and is not
modelled; every use in the program is on small values. -/
def atoi (s : List Char) : Int :=
  match s.dropWhile isspaceC with
  | '-' :: r => - digitsVal r
  | '+' :: r => digitsVal r
  | t => digitsVal t

/-- The `valid_port` macro: `atoi(port) >= 1 && atoi(port) <= 65535`. -/
def valid_port (s : List Char) : Bool :=
  decide (1 ≤ atoi s) && decide (atoi s ≤ 65535)

/-- One option token as delivered by `getopt(argc, argv, "w:fuA:P:d:D")`.
`unknown` is the `'?'` result (unrecognised option, or missing argument).
The tokenisation itself is `getopt`'s job and is treated as external. -/
inductive CliOpt where
  | w (arg : List Char)
  | f
  | u
  | A (arg : List Char)
  | P (arg : List Char)
  | d (arg : List Char)
  | D
  | unknown
deriving DecidableEq

/-- The mutable locals of `main` that the option loop updates. -/
structure OptState where
  timeout : Int
  loop_wait : Int
  use_dns : Bool
  wol_host : List Char
  wol_port : List Char
  wol_direct : Bool
deriving DecidableEq

/-- Initial values of `main`'s locals (lines 157-167 of `wolwait.cpp`). -/
def initOptState : OptState :=
  { timeout := 300, loop_wait := 5, use_dns := false,
    wol_host := ("255.255.255.255").toList, wol_port := ['9'], wol_direct := false }

/-- The `while((arg = getopt(...)) != -1)` loop of `main`: each option either
updates the state or terminates the process (`Except.error` carries the exit
status: `0` after `usage()` for `'?'`, `EX_USAGE` for a bad `-w`/`-d` value,
`1` for a bad `-P` port). -/
def procOpts : List CliOpt → OptState → Except Int OptState
  | [], st => Except.ok st
  | o :: rest, st =>
    match o with
    | CliOpt.unknown => Except.error 0
    | CliOpt.w s =>
      if atoi s ≤ 0 then Except.error EX_USAGE
      else procOpts rest { st with timeout := atoi s }
    | CliOpt.f => procOpts rest { st with timeout := 0 }
    | CliOpt.u => procOpts rest { st with wol_direct := true }
    | CliOpt.A s => procOpts rest { st with wol_host := s }
    | CliOpt.P s =>
      if valid_port s then procOpts rest { st with wol_port := s }
      else Except.error 1
    | CliOpt.d s =>
      if atoi s ≤ 0 then Except.error EX_USAGE
      else procOpts rest { st with loop_wait := atoi s }
    | CliOpt.D => procOpts rest { st with use_dns := true }

/-- Oracle for `main`'s external calls outside the loop: whether each
`getaddrinfo` and `socket`/`setsockopt` call succeeds, the status returned by
`mac_from_dns` (that function wraps the external resolver library; its
internals beyond the `res_search` call are abstracted into this status), and
the loop oracle. -/
structure MainEnv where
  gaiWolOk : Bool
  dnsStatus : Int
  gaiTestOk : Bool
  sockWolOk : Bool
  sockOptOk : Bool
  sockTcpOk : Bool
  loop : Env

/-- Continuation of `main` from the target-port check onwards (lines 261-331 of
`wolwait.cpp`): check `valid_port(port_a)`, resolve the target endpoint,
create the UDP socket, enable broadcast, create the TCP socket, run the loop,
then close both sockets and free both address lists.  `evs` is the event
trace accumulated so far. -/
def afterMac (st : OptState) (pos : List (List Char)) (env : MainEnv) (fuel : Nat)
    (evs : List Ev) : Option (Int × List Ev) :=
  if valid_port (pos.getD (if st.use_dns then 1 else 2) []) then
    if env.gaiTestOk then
      if env.sockWolOk then
        if env.sockOptOk then
          if env.sockTcpOk then
            match loopGo st.timeout env.loop (env.loop.timeAt 0) fuel 0 with
            | none => none
            | some (oc, levs) =>
              some (exitOf oc,
                evs ++ [Ev.gaiTest true, Ev.sockWol true, Ev.sockOpt true, Ev.sockTcp true] ++
                  levs ++ [Ev.closeTcp, Ev.closeWol, Ev.freeTest, Ev.freeWol])
          else some (EX_OSERR, evs ++ [Ev.gaiTest true, Ev.sockWol true, Ev.sockOpt true, Ev.sockTcp false])
        else some (EX_OSERR, evs ++ [Ev.gaiTest true, Ev.sockWol true, Ev.sockOpt false])
      else some (EX_OSERR, evs ++ [Ev.gaiTest true, Ev.sockWol false])
    else some (EX_UNAVAILABLE, evs ++ [Ev.gaiTest false])
  else some (EX_USAGE, evs)

/-- Function `main` from `wolwait.cpp`, as a function of the already-tokenised option
list, the positional arguments left after `getopt`, and the oracle.  The
result is the process exit status together with the ordered trace of external
calls; `none` means the loop never terminated within `fuel` iterations. -/
def mainModel (opts : List CliOpt) (pos : List (List Char)) (env : MainEnv) (fuel : Nat) :
    Option (Int × List Ev) :=
  match procOpts opts initOptState with
  | Except.error c => some (c, [])
  | Except.ok st =>
    if pos.length = (if st.use_dns then 2 else 3) then
      if env.gaiWolOk then
        if st.use_dns then
          if env.dnsStatus = EX_OK then afterMac st pos env fuel [Ev.gaiWol true, Ev.dnsTxt]
          else some (env.dnsStatus, [Ev.gaiWol true, Ev.dnsTxt])
        else
          match parse_mac (pos.getD 0 []) with
          | some _ => afterMac st pos env fuel [Ev.gaiWol true]
          | none => some (EX_USAGE, [Ev.gaiWol true])
      else some (EX_UNAVAILABLE, [Ev.gaiWol false])
    else some (EX_USAGE, [])

/-- The four resources `main` holds: the two `addrinfo` lists and the two
sockets. -/
inductive Res where
  | wolAi
  | testAi
  | wolSock
  | tcpSock
deriving DecidableEq

/-- The resource acquired by an event, if any (a successful `getaddrinfo`
allocates an address list, a successful `socket` call a descriptor). -/
def acqOf : Ev → Option Res
  | Ev.gaiWol true => some Res.wolAi
  | Ev.gaiTest true => some Res.testAi
  | Ev.sockWol true => some Res.wolSock
  | Ev.sockTcp true => some Res.tcpSock
  | _ => none

/-- The resource released by an event, if any (`close`/`freeaddrinfo`). -/
def relOf : Ev → Option Res
  | Ev.closeTcp => some Res.tcpSock
  | Ev.closeWol => some Res.wolSock
  | Ev.freeTest => some Res.testAi
  | Ev.freeWol => some Res.wolAi
  | _ => none

/-- Resources acquired during a trace. -/
def acquired (evs : List Ev) : List Res := evs.filterMap acqOf

/-- Resources released during a trace. -/
def released (evs : List Ev) : List Res := evs.filterMap relOf

/-- Events that perform name/address resolution or a DNS lookup (the network
activity relevant to usage-error ordering): both `getaddrinfo` calls and the
`res_search` inside `mac_from_dns`. -/
def isResolutionEv : Ev → Bool
  | Ev.gaiWol _ => true
  | Ev.gaiTest _ => true
  | Ev.dnsTxt => true
  | _ => false

/-- Big-endian integer value of a byte sequence. -/
def beVal (bs : List Nat) : Nat := bs.foldl (fun a b => 256 * a + b) 0

/-- Function `from_endian` from `sid2string.cpp`, by its observable result: the
`uint32_t` written to `dest` holds the value of the `src` bytes read in the
source endianness `fe` (`0` little, `1` big).  The byte-swap-versus-`memcpy`
dispatch on the machine's endianness produces exactly this value on both
little- and big-endian hosts. -/
def from_endian (src : List Nat) (fe : Nat) : Nat :=
  if fe = 1 then beVal src else beVal src.reverse

/-- Conversion of a byte read through the C `char` type (signed on the
reference platform) to `unsigned int`: bytes `≥ 128` sign-extend. -/
def charToUInt (b : Nat) : Nat := if b < 128 then b else 4294967040 + b

/-- Function `sid2string` from `sid2string.cpp`.  `bin` is the byte buffer, `len` the
`unsigned int` length argument.  `revision = bin[0]` and `dashes = bin[1]`
are read through signed `char` and converted to `unsigned int`
(`charToUInt`); the `MINLEN(8 + (4*dashes))` bound and the per-record offset
`n*4` are computed in 32-bit unsigned arithmetic, hence the `% 4294967296`.
Reads beyond the buffer (possible only when `len` overstates the buffer) are
modelled as `0`. -/
def sid2string (bin : List Nat) (len : Nat) : String :=
  if len < 8 then "" else
  if len < (8 + 4 * charToUInt (bin.getD 1 0)) % 4294967296 then "" else
  if charToUInt (bin.getD 0 0) ≠ 1 then "" else
  (List.range (charToUInt (bin.getD 1 0))).foldl
    (fun ret n => ret ++ ("-" ++ toString (from_endian ((bin.drop (8 + (n * 4) % 4294967296)).take 4) 0)))
    ("S-" ++ toString (charToUInt (bin.getD 0 0)) ++ ("-" ++ toString (from_endian ((bin.drop 4).take 4) 1)))

/-- Claim C10 formalised as written: `sid2string(bin, len)` is empty exactly
when `len < 8`, or `len < 8 + 4*bin[1]`, or `bin[0] ≠ 1` (with `bin[1]` read
as the plain byte value), and otherwise is `"S-"`, the revision, the
big-endian value of bytes `[4,8)`, then `bin[1]` dash-separated little-endian
values of the consecutive 4-byte groups from byte `8` on. -/
def sid2string_claimed (bin : List Nat) (len : Nat) : String :=
  if len < 8 ∨ len < 8 + 4 * bin.getD 1 0 ∨ bin.getD 0 0 ≠ 1 then ""
  else
    ("S-" ++ toString (bin.getD 0 0) ++ ("-" ++ toString (beVal ((bin.drop 4).take 4)))) ++
      String.join ((List.range (bin.getD 1 0)).map
        (fun n => "-" ++ toString (beVal ((bin.drop (8 + (n * 4) % 4294967296)).take 4).reverse)))

/-- Claim C10 amended to what the code computes: the subauthority count and
the length bound use `bin[1]` sign-extended through `char` to `unsigned int`
(`charToUInt`), with the bound and the group offsets taken modulo `2^32`. -/
def sid2string_amended (bin : List Nat) (len : Nat) : String :=
  if len < 8 ∨ len < (8 + 4 * charToUInt (bin.getD 1 0)) % 4294967296 ∨ bin.getD 0 0 ≠ 1 then ""
  else
    ("S-" ++ toString (bin.getD 0 0) ++ ("-" ++ toString (beVal ((bin.drop 4).take 4)))) ++
      String.join ((List.range (charToUInt (bin.getD 1 0))).map
        (fun n => "-" ++ toString (beVal ((bin.drop (8 + (n * 4) % 4294967296)).take 4).reverse)))

/-- A hardware address for concrete runs: `AA:BB:CC:DD:EE:FF`. -/
def macBytes : List Nat := [170, 187, 204, 221, 238, 255]

/-- The MAC string `AA:BB:CC:DD:EE:FF`. -/
def macChars : List Char := ("AA:BB:CC:DD:EE:FF").toList

/-- A target host string for concrete runs. -/
def hostChars : List Char := ("192.0.2.10").toList

/-- A valid target port string. -/
def port22 : List Char := ['2', '2']

/-- An out-of-range target port string. -/
def portBad : List Char := ['9', '9', '9', '9', '9']

/-- Loop oracle whose first probe already succeeds. -/
def envAllTrue : Env :=
  { timeAt := fun _ => 0, sendOk := fun _ => true, probeOk := fun _ => true }

/-- Main oracle in which every external call succeeds. -/
def goodMainEnv : MainEnv :=
  { gaiWolOk := true, dnsStatus := 0, gaiTestOk := true, sockWolOk := true,
    sockOptOk := true, sockTcpOk := true, loop := envAllTrue }

/-- Main oracle in which `setsockopt(SO_BROADCAST)` fails. -/
def sockOptFailEnv : MainEnv := { goodMainEnv with sockOptOk := false }

/-- Loop oracle for a concrete timeout run: clock starts at `0` and advances
`5` seconds per iteration, sends succeed, probes never succeed. -/
def c3env : Env :=
  { timeAt := fun k => match k with | 0 => 0 | Nat.succ m => 5 * (m : Int),
    sendOk := fun _ => true, probeOk := fun _ => false }

/-- Loop oracle whose second `sendto` fails. -/
def c2env : Env :=
  { timeAt := fun _ => 0, sendOk := fun i => i == 0, probeOk := fun _ => false }

/-- Loop oracle whose third probe succeeds. -/
def c4env : Env :=
  { timeAt := fun _ => 0, sendOk := fun _ => true, probeOk := fun i => i == 2 }

/-- Loop oracle for the clock-adjustment counterexample: clock advances `5`
seconds per iteration, sends succeed, the second probe succeeds. -/
def c5env : Env :=
  { timeAt := fun k => match k with | 0 => 0 | Nat.succ m => 5 * (m : Int),
    sendOk := fun _ => true, probeOk := fun i => i == 1 }

/-- The binary SID exposing the signed-`char` divergence: revision `1`,
subauthority count byte `128`, in a buffer of exactly `8 + 4*128 = 520`
bytes. -/
def cbin : List Nat := 1 :: 128 :: List.replicate 518 0

/-- The wake packet buffer after the initial `memset` and `n` of the 16
`memcpy` steps: 6 bytes of `0xFF`, `n` copies of the address, and the not yet
overwritten remainder of the (arbitrarily zero-initialised) stack buffer. -/
def wolState (mac : List Nat) (n : Nat) : List Nat :=
  List.replicate 6 255 ++ ((List.replicate n mac).flatten ++ List.replicate (96 - 6 * n) 0)

lemma writeBytes_at (A B C src : List Nat) (hB : B.length = src.length) :
    writeBytes (A ++ (B ++ C)) A.length src = A ++ (src ++ C) := by
  unfold writeBytes
  have h1 : (A ++ (B ++ C)).take A.length = A := List.take_left A (B ++ C)
  have h2 : (A ++ (B ++ C)).drop (A.length + src.length) = C := by
    rw [← hB]
    have h3 : A ++ (B ++ C) = (A ++ B) ++ C := by simp
    rw [h3]
    have h4 : (A ++ B).length = A.length + B.length := by simp
    rw [← h4, List.drop_left]
  rw [h1, h2]
  simp

lemma flatten_replicate_length (mac : List Nat) (n : Nat) :
    (List.replicate n mac).flatten.length = n * mac.length := by
  simp [List.length_flatten, List.sum_replicate, smul_eq_mul]

lemma wolState_step (mac : List Nat) (hm : mac.length = 6) (n : Nat) (hn : n < 16) :
    writeBytes (wolState mac n) ((n + 1) * 6) mac = wolState mac (n + 1) := by
  have hA : (List.replicate 6 (255:Nat) ++ (List.replicate n mac).flatten).length = (n + 1) * 6 := by
    simp [flatten_replicate_length, hm]
    ring
  have hz : List.replicate (96 - 6 * n) (0:Nat) =
      List.replicate 6 0 ++ List.replicate (96 - 6 * (n + 1)) 0 := by
    rw [← List.replicate_add]
    congr 1
    omega
  have hshape : wolState mac n =
      (List.replicate 6 255 ++ (List.replicate n mac).flatten) ++
        (List.replicate 6 0 ++ List.replicate (96 - 6 * (n + 1)) 0) := by
    unfold wolState
    rw [hz]
    simp
  rw [hshape, ← hA, writeBytes_at _ _ _ mac (by simp [hm])]
  unfold wolState
  rw [List.replicate_succ' n mac, List.flatten_append]
  simp

lemma wolFold (mac : List Nat) (hm : mac.length = 6) :
    ∀ n, n ≤ 16 →
      (List.range n).foldl (fun buf i => writeBytes buf ((i + 1) * 6) mac)
        (writeBytes (List.replicate 102 0) 0 (List.replicate 6 255)) = wolState mac n := by
  intro n
  induction n with
  | zero => intro _; rfl
  | succ n ih =>
    intro hn
    rw [List.range_succ, List.foldl_append, ih (by omega)]
    simp only [List.foldl_cons, List.foldl_nil]
    exact wolState_step mac hm n (by omega)

lemma flatten_extract (mac : List Nat) (hm : mac.length = 6) :
    ∀ n k, k < n → (((List.replicate n mac).flatten).drop (6 * k)).take 6 = mac := by
  intro n
  induction n with
  | zero => intro k hk; omega
  | succ n ih =>
    intro k hk
    rw [List.replicate_succ, List.flatten_cons]
    cases k with
    | zero =>
      simp only [Nat.mul_zero, List.drop_zero]
      have h := List.take_left mac ((List.replicate n mac).flatten)
      rwa [hm] at h
    | succ k =>
      rw [show 6 * (k + 1) = mac.length + 6 * k by rw [hm]; ring]
      rw [List.drop_append]
      exact ih k (by omega)

/-- Claim C1: for every 6-byte hardware address `M`, `build_wol_packet M` is
exactly 102 bytes, its first 6 bytes are all `0xFF`, and bytes
`[6+6k, 12+6k)` equal `M` for every `k < 16`. -/
theorem build_wol_packet_spec (mac : List Nat) (hlen : mac.length = 6) :
    (build_wol_packet mac).length = 102 ∧
    (build_wol_packet mac).take 6 = List.replicate 6 255 ∧
    ∀ k, k < 16 → ((build_wol_packet mac).drop (6 + 6 * k)).take 6 = mac := by
  have hb : build_wol_packet mac = wolState mac 16 := by
    unfold build_wol_packet
    exact wolFold mac hlen 16 (by omega)
  refine ⟨?_, ?_, ?_⟩
  · rw [hb]
    unfold wolState
    simp [flatten_replicate_length, hlen]
  · rw [hb]
    unfold wolState
    have h := List.take_left (List.replicate 6 (255:Nat))
      ((List.replicate 16 mac).flatten ++ List.replicate (96 - 6 * 16) 0)
    simp only [List.length_replicate] at h
    exact h
  · intro k hk
    rw [hb]
    unfold wolState
    have h0 : List.replicate (96 - 6 * 16) (0:Nat) = [] := by norm_num
    rw [h0, List.append_nil]
    have hdrop : (List.replicate 6 (255:Nat) ++ (List.replicate 16 mac).flatten).drop
        ((List.replicate 6 (255:Nat)).length + 6 * k) =
        ((List.replicate 16 mac).flatten).drop (6 * k) := List.drop_append (6 * k)
    simp only [List.length_replicate] at hdrop
    rw [hdrop]
    exact flatten_extract mac hlen 16 k hk

/-- Concrete run of `build_wol_packet_spec` on `AA:BB:CC:DD:EE:FF`. -/
theorem build_wol_packet_spec_witness :
    macBytes.length = 6 ∧
    ((build_wol_packet macBytes).length = 102 ∧
      (build_wol_packet macBytes).take 6 = List.replicate 6 255 ∧
      ∀ k, k < 16 → ((build_wol_packet macBytes).drop (6 + 6 * k)).take 6 = macBytes) :=
  ⟨rfl, build_wol_packet_spec macBytes rfl⟩

lemma loopGo_succ (timeout : Int) (e : Env) (b : Int) (fuel i : Nat) :
    loopGo timeout e b (fuel + 1) i =
      if condB timeout b (e.timeAt (i + 1)) then
        if e.sendOk i then
          if e.probeOk i then
            some (Outcome.success, [Ev.send i, Ev.probe i])
          else
            match loopGo timeout e b fuel (i + 1) with
            | none => none
            | some (oc, evs) => some (oc, Ev.send i :: Ev.probe i :: evs)
        else
          some (Outcome.transportFailure, [Ev.send i])
      else
        some (Outcome.timedOut, []) := rfl

lemma loopGo_skip (timeout : Int) (e : Env) (b : Int) :
    ∀ (n fuel i : Nat),
      (∀ j, j < n → condB timeout b (e.timeAt (i + j + 1)) = true ∧
        e.sendOk (i + j) = true ∧ e.probeOk (i + j) = false) →
      loopGo timeout e b (fuel + n) i =
        (loopGo timeout e b fuel (i + n)).map (fun r => (r.1, iterEvsFrom i n ++ r.2)) := by
  intro n
  induction n with
  | zero =>
    intro fuel i _
    cases h : loopGo timeout e b fuel i <;> simp [iterEvsFrom, h]
  | succ n ih =>
    intro fuel i hclean
    have hstep := hclean 0 (by omega)
    rw [show fuel + (n + 1) = (fuel + n) + 1 by omega, loopGo_succ]
    simp only [Nat.add_zero] at hstep
    rw [hstep.1, hstep.2.1, hstep.2.2]
    simp only [if_true, if_false]
    have ih2 := ih fuel (i + 1) (by
      intro j hj
      have hj2 := hclean (j + 1) (by omega)
      constructor
      · have h1 := hj2.1
        rw [show i + (j + 1) + 1 = i + 1 + j + 1 by omega] at h1
        exact h1
      constructor
      · have h1 := hj2.2.1
        rw [show i + (j + 1) = i + 1 + j by omega] at h1
        exact h1
      · have h1 := hj2.2.2
        rw [show i + (j + 1) = i + 1 + j by omega] at h1
        exact h1)
    rw [ih2]
    rw [show i + (n + 1) = i + 1 + n by omega]
    cases hr : loopGo timeout e b fuel (i + 1 + n) <;> simp [iterEvsFrom]

@[simp] lemma isSendEv_send (i : Nat) : isSendEv (Ev.send i) = true := rfl

@[simp] lemma isSendEv_probe (i : Nat) : isSendEv (Ev.probe i) = false := rfl

@[simp] lemma isProbeEv_send (i : Nat) : isProbeEv (Ev.send i) = false := rfl

@[simp] lemma isProbeEv_probe (i : Nat) : isProbeEv (Ev.probe i) = true := rfl

lemma countSends_iter : ∀ n i, countSends (iterEvsFrom i n) = n := by
  intro n
  induction n with
  | zero => intro i; rfl
  | succ n ih =>
    intro i
    simp [iterEvsFrom, countSends, List.filter] at ih ⊢
    exact ih (i + 1)

lemma countProbes_iter : ∀ n i, countProbes (iterEvsFrom i n) = n := by
  intro n
  induction n with
  | zero => intro i; rfl
  | succ n ih =>
    intro i
    simp [iterEvsFrom, countProbes, List.filter] at ih ⊢
    exact ih (i + 1)

lemma countSends_append (a b : List Ev) :
    countSends (a ++ b) = countSends a + countSends b := by
  simp [countSends, List.filter_append]

lemma countProbes_append (a b : List Ev) :
    countProbes (a ++ b) = countProbes a + countProbes b := by
  simp [countProbes, List.filter_append]

/-- Claim C2: if the loop reaches iteration `n` (every earlier iteration had a
passing guard, a successful send and a failing probe, and the guard at `n`
passes) and the `sendto` of iteration `n` fails, the loop terminates at once
with `transportFailure`: the trace ends at the failing send, with `n + 1`
send attempts and only the `n` earlier probes. -/
theorem send_failure_stops_loop (timeout : Int) (e : Env) (b : Int) (fuel n : Nat)
    (hclean : ∀ j, j < n → condB timeout b (e.timeAt (j + 1)) = true ∧
      e.sendOk j = true ∧ e.probeOk j = false)
    (hcond : condB timeout b (e.timeAt (n + 1)) = true)
    (hfail : e.sendOk n = false) :
    loopGo timeout e b (fuel + n + 1) 0 =
      some (Outcome.transportFailure, iterEvsFrom 0 n ++ [Ev.send n]) ∧
    countSends (iterEvsFrom 0 n ++ [Ev.send n]) = n + 1 ∧
    countProbes (iterEvsFrom 0 n ++ [Ev.send n]) = n := by
  have hskip := loopGo_skip timeout e b n (fuel + 1) 0 (by
    intro j hj
    simpa using hclean j hj)
  rw [show fuel + n + 1 = (fuel + 1) + n by omega, hskip]
  simp only [Nat.zero_add]
  rw [loopGo_succ, hcond, hfail]
  refine ⟨by simp, ?_, ?_⟩
  · rw [countSends_append, countSends_iter]
    simp [countSends, List.filter]
  · rw [countProbes_append, countProbes_iter]
    simp [countProbes, List.filter]

/-- Concrete run of `send_failure_stops_loop`: the second send fails. -/
theorem send_failure_stops_loop_witness :
    (∀ j, j < 1 → condB 0 0 (c2env.timeAt (j + 1)) = true ∧
      c2env.sendOk j = true ∧ c2env.probeOk j = false) ∧
    condB 0 0 (c2env.timeAt 2) = true ∧
    c2env.sendOk 1 = false ∧
    (loopGo 0 c2env 0 3 0 = some (Outcome.transportFailure, iterEvsFrom 0 1 ++ [Ev.send 1]) ∧
      countSends (iterEvsFrom 0 1 ++ [Ev.send 1]) = 2 ∧
      countProbes (iterEvsFrom 0 1 ++ [Ev.send 1]) = 1) := by
  refine ⟨?_, rfl, rfl, ?_⟩
  · intro j hj
    interval_cases j
    exact ⟨rfl, rfl, rfl⟩
  · exact send_failure_stops_loop 0 c2env 0 1 1
      (by intro j hj; interval_cases j; exact ⟨rfl, rfl, rfl⟩) rfl rfl

/-- Claim C9: when the guard passes, the first send succeeds and the first
probe reports reachable, the loop returns `success` with the trace
`[send 0, probe 0]`: exactly one payload sent, and sent before the probe. -/
theorem reachable_first_iteration (timeout : Int) (e : Env) (b : Int) (fuel : Nat)
    (hcond : condB timeout b (e.timeAt 1) = true)
    (hsend : e.sendOk 0 = true) (hprobe : e.probeOk 0 = true) :
    loopGo timeout e b (fuel + 1) 0 = some (Outcome.success, [Ev.send 0, Ev.probe 0]) ∧
    countSends [Ev.send 0, Ev.probe 0] = 1 := by
  rw [loopGo_succ]
  simp only [Nat.zero_add] at hcond ⊢
  rw [hcond, hsend, hprobe]
  exact ⟨by simp, rfl⟩

/-- Concrete run of `reachable_first_iteration`. -/
theorem reachable_first_iteration_witness :
    condB 300 0 (envAllTrue.timeAt 1) = true ∧
    envAllTrue.sendOk 0 = true ∧ envAllTrue.probeOk 0 = true ∧
    (loopGo 300 envAllTrue 0 1 0 = some (Outcome.success, [Ev.send 0, Ev.probe 0]) ∧
      countSends [Ev.send 0, Ev.probe 0] = 1) :=
  ⟨rfl, rfl, rfl, reachable_first_iteration 300 envAllTrue 0 0 rfl rfl rfl⟩

/-- Claim C4: with `timeout = 0` the guard is always true (the deadline check
is disabled), so if the probe fails `N` times and then succeeds, the loop
returns `success` having sent exactly `N + 1` payloads. -/
theorem unbounded_unreachable_then_success (e : Env) (b : Int) (N fuel : Nat)
    (hprobe : ∀ j, j < N → e.probeOk j = false) (hN : e.probeOk N = true)
    (hsend : ∀ i, e.sendOk i = true) :
    loopGo 0 e b (fuel + N + 1) 0 =
      some (Outcome.success, iterEvsFrom 0 N ++ [Ev.send N, Ev.probe N]) ∧
    countSends (iterEvsFrom 0 N ++ [Ev.send N, Ev.probe N]) = N + 1 := by
  have hcondT : ∀ now, condB 0 b now = true := by
    intro now
    simp [condB]
  have hskip := loopGo_skip 0 e b N (fuel + 1) 0 (by
    intro j hj
    simpa [hcondT] using ⟨hsend j, hprobe j hj⟩)
  rw [show fuel + N + 1 = (fuel + 1) + N by omega, hskip]
  simp only [Nat.zero_add]
  rw [loopGo_succ, hcondT, hsend, hN]
  refine ⟨by simp, ?_⟩
  rw [countSends_append, countSends_iter]
  simp [countSends, List.filter]

/-- Concrete run of `unbounded_unreachable_then_success` with `N = 2`. -/
theorem unbounded_unreachable_then_success_witness :
    (∀ j, j < 2 → c4env.probeOk j = false) ∧
    c4env.probeOk 2 = true ∧
    (∀ i, c4env.sendOk i = true) ∧
    (loopGo 0 c4env 0 3 0 =
        some (Outcome.success, iterEvsFrom 0 2 ++ [Ev.send 2, Ev.probe 2]) ∧
      countSends (iterEvsFrom 0 2 ++ [Ev.send 2, Ev.probe 2]) = 3) := by
  refine ⟨?_, rfl, fun i => rfl, ?_⟩
  · intro j hj
    interval_cases j <;> rfl
  · exact unbounded_unreachable_then_success c4env 0 2 0
      (by intro j hj; interval_cases j <;> rfl) rfl (fun i => rfl)

lemma lt_ceil_iff (T D : Nat) (hT : 0 < T) (hD : 0 < D) (j : Nat) :
    j * D < T ↔ j < (T + D - 1) / D := by
  have h1 : (j + 1) * D = j * D + D := by ring
  show j * D < T ↔ j + 1 ≤ (T + D - 1) / D
  rw [Nat.le_div_iff_mul_le hD, h1]
  omega

lemma ceil_mul_ge (T D : Nat) (hT : 0 < T) (hD : 0 < D) :
    T ≤ ((T + D - 1) / D) * D := by
  have h := lt_ceil_iff T D hT hD ((T + D - 1) / D)
  omega

/-- Claim C3: with timeout `T > 0`, retry delay `D > 0`, ideal timing (the
clock read at the guard of iteration `k` is `t0 + k*D`: the `sleep(loop_wait)`
accounts for all elapsed time), all sends succeeding and every probe
unreachable, the loop returns `timedOut` after exactly `⌈T/D⌉ = (T+D-1)/D`
sends (within the claimed `±1`), and the elapsed wall time at the final guard
is at least `T`. -/
theorem always_unreachable_times_out (T D : Nat) (t0 : Int) (e : Env) (fuel c : Nat)
    (hT : 0 < T) (hD : 0 < D) (hc : c = (T + D - 1) / D)
    (ht0 : e.timeAt 0 = t0)
    (htime : ∀ k, e.timeAt (k + 1) = t0 + (k : Int) * (D : Int))
    (hsend : ∀ i, e.sendOk i = true) (hprobe : ∀ i, e.probeOk i = false) :
    loopGo (T : Int) e t0 (fuel + c + 1) 0 = some (Outcome.timedOut, iterEvsFrom 0 c) ∧
    countSends (iterEvsFrom 0 c) = c ∧
    countProbes (iterEvsFrom 0 c) = c ∧
    e.timeAt (c + 1) - e.timeAt 0 ≥ (T : Int) := by
  have hTne : ((T : Int) == 0) = false := by
    have h : (T : Int) ≠ 0 := by
      simp only [ne_eq, Nat.cast_eq_zero]
      omega
    simp [h]
  have hcondj : ∀ j, j < c → condB (T : Int) t0 (e.timeAt (j + 1)) = true := by
    intro j hj
    have hjD : j * D < T := (lt_ceil_iff T D hT hD j).mpr (by omega)
    have hjD2 : (j : Int) * (D : Int) < (T : Int) := by exact_mod_cast hjD
    rw [htime]
    simp only [condB, hTne, Bool.false_or, decide_eq_true_eq]
    omega
  have hcondc : condB (T : Int) t0 (e.timeAt (c + 1)) = false := by
    have hge : T ≤ c * D := by
      rw [hc]
      exact ceil_mul_ge T D hT hD
    have hge2 : (T : Int) ≤ (c : Int) * (D : Int) := by exact_mod_cast hge
    rw [htime]
    simp only [condB, hTne, Bool.false_or, decide_eq_false_iff_not]
    omega
  have hskip := loopGo_skip (T : Int) e t0 c (fuel + 1) 0 (by
    intro j hj
    simpa using ⟨hcondj j hj, hsend j, hprobe j⟩)
  rw [show fuel + c + 1 = (fuel + 1) + c by omega, hskip]
  simp only [Nat.zero_add]
  rw [loopGo_succ, hcondc]
  refine ⟨by simp, countSends_iter c 0, countProbes_iter c 0, ?_⟩
  rw [htime, ht0]
  have hge : T ≤ c * D := by
    rw [hc]
    exact ceil_mul_ge T D hT hD
  have hge2 : (T : Int) ≤ (c : Int) * (D : Int) := by exact_mod_cast hge
  omega

/-- Concrete run of `always_unreachable_times_out`: `T = 10`, `D = 5`,
`⌈T/D⌉ = 2` payloads, elapsed `10 ≥ T`. -/
theorem always_unreachable_times_out_witness :
    ((0:Nat) < 10 ∧ (0:Nat) < 5 ∧ 2 = (10 + 5 - 1) / 5 ∧ c3env.timeAt 0 = 0 ∧
      (∀ k, c3env.timeAt (k + 1) = 0 + (k : Int) * 5) ∧
      (∀ i, c3env.sendOk i = true) ∧ (∀ i, c3env.probeOk i = false)) ∧
    (loopGo 10 c3env 0 3 0 = some (Outcome.timedOut, iterEvsFrom 0 2) ∧
      countSends (iterEvsFrom 0 2) = 2 ∧
      countProbes (iterEvsFrom 0 2) = 2 ∧
      c3env.timeAt 3 - c3env.timeAt 0 ≥ 10) := by
  have htime : ∀ k, c3env.timeAt (k + 1) = 0 + (k : Int) * 5 := by
    intro k
    show (5 : Int) * (k : Int) = 0 + (k : Int) * 5
    ring
  refine ⟨⟨by omega, by omega, rfl, rfl, htime, fun i => rfl, fun i => rfl⟩, ?_⟩
  exact always_unreachable_times_out 10 5 0 c3env 0 2 (by omega) (by omega) rfl rfl
    htime (fun i => rfl) (fun i => rfl)

lemma condB_shift (timeout b now c : Int) :
    condB timeout (b + c) (now + c) = condB timeout b now := by
  simp only [condB]
  congr 1
  rw [decide_eq_decide]
  omega

/-- Claim C5 (amended): decisions of the loop depend on wall-clock readings
only through their differences: a constant clock offset `c` applied to every
`time(NULL)` reading (including the initial `begin` sample) leaves the whole
run, outcome and trace, unchanged. -/
theorem clock_shift_invariance (timeout : Int) (e : Env) (c b : Int) :
    ∀ fuel i, loopGo timeout (clockShift e c) (b + c) fuel i = loopGo timeout e b fuel i := by
  intro fuel
  induction fuel with
  | zero => intro i; rfl
  | succ fuel ih =>
    intro i
    rw [loopGo_succ, loopGo_succ]
    have hs : (clockShift e c).sendOk = e.sendOk := rfl
    have hp : (clockShift e c).probeOk = e.probeOk := rfl
    have ht : (clockShift e c).timeAt (i + 1) = e.timeAt (i + 1) + c := rfl
    rw [hs, hp, ht, condB_shift, ih]

/-- Claim C5, counterexample: the loop compares `begin + timeout` against
`time(NULL)`, a wall clock.  With timeout `10`, the run under clock `c5env`
succeeds on the second iteration, but the same run with the clock stepped
forward `100` seconds from the second reading onwards times out after one
iteration: a mid-run wall-clock adjustment changes the termination decision,
so the decisions do not depend only on monotonic elapsed time. -/
theorem wall_clock_step_changes_outcome :
    loopGo 10 c5env (c5env.timeAt 0) 10 0 =
      some (Outcome.success, [Ev.send 0, Ev.probe 0, Ev.send 1, Ev.probe 1]) ∧
    loopGo 10 (clockStepAt c5env 2 100) ((clockStepAt c5env 2 100).timeAt 0) 10 0 =
      some (Outcome.timedOut, [Ev.send 0, Ev.probe 0]) := by
  constructor <;> rfl

/-- Claim C7, counterexample: with `-D` and the syntactically invalid target
port `99999`, the run performs the wake-endpoint `getaddrinfo` and the DNS
TXT lookup before detecting the usage error: the usage-error exit
(`EX_USAGE`) is reached with resolution events already in the trace. -/
theorem usage_error_after_resolution :
    mainModel [CliOpt.D] [hostChars, portBad] goodMainEnv 1 =
      some (EX_USAGE, [Ev.gaiWol true, Ev.dnsTxt]) ∧
    [Ev.gaiWol true, Ev.dnsTxt].any isResolutionEv = true := by
  constructor
  · rfl
  · rfl

/-- Claim C7 (amended): the usage errors raised while processing the option
list (bad `-w`/`-d` duration, bad `-P` port, unrecognised option) and the
wrong-argument-count check do terminate the run with an empty trace: no
resolution, no DNS lookup, no socket call.  (The invalid-target-port and
invalid-MAC usage errors are excluded: they are detected only after the
wake-endpoint resolution, as `usage_error_after_resolution` shows.) -/
theorem early_usage_errors_before_network (opts : List CliOpt) (pos : List (List Char))
    (env : MainEnv) (fuel : Nat) (c : Int) (st : OptState) :
    (procOpts opts initOptState = Except.error c → mainModel opts pos env fuel = some (c, [])) ∧
    (procOpts opts initOptState = Except.ok st → pos.length ≠ (if st.use_dns then 2 else 3) →
      mainModel opts pos env fuel = some (EX_USAGE, [])) := by
  constructor
  · intro h
    unfold mainModel
    rw [h]
  · intro h hlen
    unfold mainModel
    rw [h]
    dsimp only
    rw [if_neg hlen]

/-- Concrete run of `early_usage_errors_before_network`: `-P 0` is rejected
with exit status `1` and an empty trace. -/
theorem early_usage_errors_before_network_witness :
    procOpts [CliOpt.P ['0']] initOptState = Except.error 1 ∧
    mainModel [CliOpt.P ['0']] [] goodMainEnv 1 = some (1, []) := by
  refine ⟨rfl, ?_⟩
  exact (early_usage_errors_before_network [CliOpt.P ['0']] [] goodMainEnv 1 1
    initOptState).1 rfl

/-- Claim C8: an unrecognised command-line option makes `main` print the
usage text and `return 0`, so this usage error exits with the same status as
a fully successful run (`exitOf Outcome.success = 0`), contradicting the
claim that every usage error is distinguished from success. -/
theorem unknown_option_exits_success_status :
    mainModel [CliOpt.unknown] [macChars, hostChars, port22] goodMainEnv 1 =
      some (exitOf Outcome.success, []) ∧
    mainModel [] [macChars, hostChars, port22] goodMainEnv 1 =
      some (exitOf Outcome.success,
        [Ev.gaiWol true, Ev.gaiTest true, Ev.sockWol true, Ev.sockOpt true, Ev.sockTcp true,
          Ev.send 0, Ev.probe 0, Ev.closeTcp, Ev.closeWol, Ev.freeTest, Ev.freeWol]) := by
  constructor
  · rfl
  · rfl

/-- Claim C6, counterexample: when `setsockopt(SO_BROADCAST)` fails, `main`
returns `EX_OSERR` immediately; by then the wake-endpoint address list (and
the target list and the UDP socket) have been acquired, and the trace
contains no `close`/`freeaddrinfo` event at all: the held resources are not
released on this exit path. -/
theorem early_exit_leaks_resources :
    mainModel [] [macChars, hostChars, port22] sockOptFailEnv 1 =
      some (EX_OSERR, [Ev.gaiWol true, Ev.gaiTest true, Ev.sockWol true, Ev.sockOpt false]) ∧
    Res.wolAi ∈ acquired [Ev.gaiWol true, Ev.gaiTest true, Ev.sockWol true, Ev.sockOpt false] ∧
    Res.wolAi ∉ released [Ev.gaiWol true, Ev.gaiTest true, Ev.sockWol true, Ev.sockOpt false] :=
  ⟨rfl, by decide, by decide⟩

/-- Claim C6 (amended): on every run that reaches the wake-and-wait loop and
terminates (Success, TimedOut, or a send TransportFailure), all four held
resources — both resolved address lists and both sockets — are acquired and
all four are released.  Early fatal exits are excluded: as
`early_exit_leaks_resources` shows, they release nothing. -/
theorem loop_paths_release_resources (opts : List CliOpt) (pos : List (List Char))
    (env : MainEnv) (fuel : Nat) (st : OptState) (oc : Outcome) (levs : List Ev)
    (hst : procOpts opts initOptState = Except.ok st)
    (hlen : pos.length = (if st.use_dns then 2 else 3))
    (hwol : env.gaiWolOk = true)
    (hmacDns : st.use_dns = true → env.dnsStatus = EX_OK)
    (hmacStr : st.use_dns = false → parse_mac (pos.getD 0 []) ≠ none)
    (hport : valid_port (pos.getD (if st.use_dns then 1 else 2) []) = true)
    (htest : env.gaiTestOk = true) (hsw : env.sockWolOk = true)
    (hso : env.sockOptOk = true) (hstc : env.sockTcpOk = true)
    (hloop : loopGo st.timeout env.loop (env.loop.timeAt 0) fuel 0 = some (oc, levs)) :
    ∃ evs, mainModel opts pos env fuel = some (exitOf oc, evs) ∧
      ∀ r : Res, r ∈ acquired evs ∧ r ∈ released evs := by
  refine ⟨(if st.use_dns then [Ev.gaiWol true, Ev.dnsTxt] else [Ev.gaiWol true]) ++
      [Ev.gaiTest true, Ev.sockWol true, Ev.sockOpt true, Ev.sockTcp true] ++ levs ++
      [Ev.closeTcp, Ev.closeWol, Ev.freeTest, Ev.freeWol], ?_, ?_⟩
  · by_cases hdns : st.use_dns
    · have hds : env.dnsStatus = EX_OK := hmacDns hdns
      have hlen2 : pos.length = 2 := by simpa [hdns] using hlen
      have h1lt : 1 < pos.length := by omega
      have hport2 : valid_port (pos[1]) = true := by
        rw [← List.getD_eq_getElem pos [] h1lt]
        simpa [hdns] using hport
      simp [mainModel, afterMac, hst, hlen2, hwol, hdns, hds, hport2, htest, hsw, hso, hstc, hloop]
    · have hdns2 : st.use_dns = false := by
        revert hdns
        cases st.use_dns <;> simp
      have hpm : parse_mac (pos.getD 0 []) ≠ none := hmacStr hdns2
      obtain ⟨bs, hbs⟩ := Option.ne_none_iff_exists'.mp hpm
      have hlen3 : pos.length = 3 := by simpa [hdns] using hlen
      have h0lt : 0 < pos.length := by omega
      have h2lt : 2 < pos.length := by omega
      have hbs2 : parse_mac (pos[0]) = some bs := by
        rw [← List.getD_eq_getElem pos [] h0lt]
        exact hbs
      have hport2 : valid_port (pos[2]) = true := by
        rw [← List.getD_eq_getElem pos [] h2lt]
        simpa [hdns] using hport
      simp [mainModel, afterMac, hst, hlen3, hwol, hdns, hbs2, hport2, htest, hsw, hso, hstc, hloop]
  · intro r
    by_cases hdns : st.use_dns <;>
      cases r <;>
        simp [hdns, acquired, released, acqOf, relOf, List.filterMap_append]

/-- Concrete run of `loop_paths_release_resources`: a plain successful run
acquires and releases all four resources. -/
theorem loop_paths_release_resources_witness :
    (procOpts [] initOptState = Except.ok initOptState ∧
      parse_mac macChars ≠ none ∧
      valid_port port22 = true ∧
      loopGo initOptState.timeout goodMainEnv.loop (goodMainEnv.loop.timeAt 0) 1 0 =
        some (Outcome.success, [Ev.send 0, Ev.probe 0])) ∧
    (∃ evs, mainModel [] [macChars, hostChars, port22] goodMainEnv 1 =
        some (exitOf Outcome.success, evs) ∧
      ∀ r : Res, r ∈ acquired evs ∧ r ∈ released evs) := by
  refine ⟨⟨rfl, by decide, rfl, rfl⟩, ?_⟩
  exact loop_paths_release_resources [] [macChars, hostChars, port22] goodMainEnv 1
    initOptState Outcome.success [Ev.send 0, Ev.probe 0] rfl rfl rfl
    (fun h => absurd h (by decide)) (fun _ => by decide) rfl rfl rfl rfl rfl rfl

lemma join_snoc (l : List String) (x : String) : String.join (l ++ [x]) = String.join l ++ x := by
  simp [String.join, List.foldl_append]

lemma charToUInt_eq_one (b : Nat) : charToUInt b = 1 ↔ b = 1 := by
  unfold charToUInt
  split
  · exact Iff.rfl
  · omega

lemma from_endian_one (s : List Nat) : from_endian s 1 = beVal s := rfl

lemma from_endian_zero (s : List Nat) : from_endian s 0 = beVal s.reverse := rfl

lemma foldl_append_join (f : Nat → String) :
    ∀ (d : Nat) (s : String),
      (List.range d).foldl (fun r n => r ++ f n) s = s ++ String.join ((List.range d).map f) := by
  intro d
  induction d with
  | zero =>
    intro s
    simp [String.join]
  | succ d ih =>
    intro s
    rw [List.range_succ, List.foldl_append, List.map_append, ih s]
    simp [join_snoc, String.append_assoc]

/-- Claim C10 (amended): `sid2string` agrees everywhere with the claimed
description once `bin[1]` is read the way the code reads it — through signed
`char`, sign-extended to `unsigned int` (`charToUInt`), with the length bound
and the group offsets computed in 32-bit arithmetic.  For `bin[1] < 128` the
amended description coincides with the original claim. -/
theorem sid2string_characterization (bin : List Nat) (len : Nat) :
    sid2string bin len = sid2string_amended bin len := by
  unfold sid2string sid2string_amended
  by_cases h1 : len < 8
  · rw [if_pos h1, if_pos (Or.inl h1)]
  by_cases h2 : len < (8 + 4 * charToUInt (bin.getD 1 0)) % 4294967296
  · rw [if_neg h1, if_pos h2, if_pos (Or.inr (Or.inl h2))]
  by_cases h3 : bin.getD 0 0 = 1
  · have hc : charToUInt (bin.getD 0 0) = 1 := (charToUInt_eq_one (bin.getD 0 0)).mpr h3
    rw [if_neg h1, if_neg h2, hc, h3]
    rw [if_neg (show ¬(1:Nat) ≠ 1 by simp)]
    rw [if_neg (show ¬(len < 8 ∨
        len < (8 + 4 * charToUInt (bin.getD 1 0)) % 4294967296 ∨ (1:Nat) ≠ 1) by
      push_neg
      exact ⟨by omega, by omega, rfl⟩)]
    simp only [from_endian_one, from_endian_zero]
    exact foldl_append_join
      (fun n => "-" ++ toString (beVal ((bin.drop (8 + (n * 4) % 4294967296)).take 4).reverse))
      (charToUInt (bin.getD 1 0))
      ("S-" ++ toString 1 ++ ("-" ++ toString (beVal ((bin.drop 4).take 4))))
  · have hc : charToUInt (bin.getD 0 0) ≠ 1 := fun h => h3 ((charToUInt_eq_one _).mp h)
    rw [if_neg h1, if_neg h2, if_pos hc, if_pos (Or.inr (Or.inr h3))]

/-- Claim C10, counterexample: for the SID with revision `1` and subauthority
count byte `128` in a 520-byte buffer, the claimed description demands the
non-empty string `S-1-0-0-…`, but the code returns the empty string: reading
`bin[1] = 128` through signed `char` makes `dashes = 2^32 - 128`, and the
wrapped bound `(8 + 4*dashes) mod 2^32 = 4294966792` exceeds `len = 520`. -/
theorem sid2string_signed_char_divergence :
    sid2string cbin 520 = "" ∧ sid2string_claimed cbin 520 ≠ "" := by
  constructor
  · rfl
  · decide
